import Mathlib

/-!
Shallow embedding of the flag-resolution engine in `ycm_conf.py`.

The Python module resolves compiler flags for a file by locating a
compilation database and an optional YAML config in the ancestor
directories of the query file, then running the raw argument vector of
the compilation entry through a pipeline: tokenize multi-argument flags,
drop useless flags, apply config remove/add overrides, absolutize
relative paths against the working directory, and flatten back to a
list of strings.

Modelling conventions:
* A parsed flag is either a plain string or a (flag, value) 2-tuple in
  Python; this is the inductive `Flag` below.  The tokenizer only ever
  produces 2-tuples, so tuples are modelled at arity two.
* Filesystem paths are plain strings.  `pathlib` path arithmetic is
  modelled component-wise without normalization or symlink resolution
  (Path.resolve both absolutizes against the process working directory
  and normalizes; the normalization and symlink parts are abstracted
  away, the absolutization is kept).
* Python `set` literals are modelled as lists; membership agrees, and
  iteration order (unspecified for Python sets) is fixed to the literal
  order of the source.
* The filesystem and the external `ycm_core` compilation index are
  modelled as an abstract record of query functions (`FS`).
* Python exceptions that can escape the module are the `PyErr`
  inductive: the tokenizer MultiFlagError, and the TypeError raised by
  `CompilationDatabase.__init__` when it receives `None` as the config
  (evaluating a membership test of a string literal in None).
-/

namespace YcmConf

/-- Parsed compiler flag token: a plain string argument (Python `str`)
or a (flag, value) pair (Python 2-tuple), as produced by
`_parse_multi_arg_flags`. -/
inductive Flag
  | bare (s : String)
  | pair (flag value : String)
deriving DecidableEq

/-- The flag spelling of a token: Python `f[0] if isinstance(f, tuple) else f`. -/
def flagOf : Flag → String
  | .bare s => s
  | .pair f _ => f

/-- CompilationDatabase.MULTI_ARG_FLAGS: flags whose value is the next argument. -/
def MULTI_ARG_FLAGS : List String :=
  ["-include", "-imacros", "-iprefix", "-iquote", "-isysroot", "-isystem",
   "-iwithprefix", "-iwithprefixbefore", "-idirafter", "-imultilib",
   "--param", "-o", "-T", "-u", "-Xlinker", "-Xpreprocesor", "-x", "-z"]

/-- CompilationDatabase.PATH_FLAGS: flags whose value is a pathname. -/
def PATH_FLAGS : List String :=
  ["-include", "-imacros", "-iprefix", "-iquote", "-isysroot", "-isystem",
   "-iwithprefix", "-iwithprefixbefore", "-idirafter", "-imultilib",
   "-iplugindir=", "-I", "-L", "--sysroot="]

/-- CompilationDatabase.SQUASH_FLAGS: pairs rejoined into one string on output. -/
def SQUASH_FLAGS : List String := ["-I", "-L", "--sysroot="]

/-- CompilationDatabase.USELESS_FLAGS: flags dropped unconditionally. -/
def USELESS_FLAGS : List String := ["-o"]

/-- CompilationDatabase.HEADER_EXTS default set. -/
def HEADER_EXTS : List String := [".h", ".hxx", ".hpp", ".hh"]

/-- CompilationDatabase.SOURCE_EXTS default set. -/
def SOURCE_EXTS : List String := [".cpp", ".cxx", ".cc", ".c", ".m", ".mm"]

/-- One alternative of the regex SINGLE_ARG_PATH_FLAG, namely
`^(?P<flag>-([IL]|(-sysroot|iplugindir)=))(?P<path>.+)$`: the flag
spelling must be a proper prefix of the argument, and the rest (the
non-empty path group) is the value. -/
def stripJoined (fl s : String) : Option (String × String) :=
  if fl.data.isPrefixOf s.data ∧ fl.data.length < s.data.length then
    some (fl, ⟨s.data.drop fl.data.length⟩)
  else none

/-- The regex match tried on every argument, giving the flag group and
the path group.  The alternatives have pairwise incomparable prefixes,
so at most one can match and trying them in sequence is equivalent to
the regex alternation. -/
def singleArgPathFlag (s : String) : Option (String × String) :=
  match stripJoined "-I" s with
  | some fp => some fp
  | none =>
    match stripJoined "-L" s with
    | some fp => some fp
    | none =>
      match stripJoined "--sysroot=" s with
      | some fp => some fp
      | none => stripJoined "-iplugindir=" s

/-- Python exceptions that can escape the module boundary. -/
inductive PyErr
  | multiFlagError
  | typeError
deriving DecidableEq

instance {ε α : Type} [DecidableEq ε] [DecidableEq α] : DecidableEq (Except ε α)
  | .error a, .error b =>
    if h : a = b then .isTrue (h ▸ rfl) else .isFalse (fun he => h (Except.error.inj he))
  | .error _, .ok _ => .isFalse (fun he => Except.noConfusion he)
  | .ok _, .error _ => .isFalse (fun he => Except.noConfusion he)
  | .ok a, .ok b =>
    if h : a = b then .isTrue (h ▸ rfl) else .isFalse (fun he => h (Except.ok.inj he))

/-- CompilationDatabase._parse_multi_arg_flags: scan the raw arguments
left to right; a joined-form path flag becomes a pair without consuming
the next argument; otherwise an argument equal to a MULTI_ARG_FLAGS
spelling consumes the next argument as its value, raising
MultiFlagError when none remains; anything else passes through as a
plain string.  Because a multi-argument flag consumes the next element,
the scan looks one element ahead: the one-element and two-plus-element
cases below spell out the same per-argument logic, with the exhausted
iterator of the source corresponding to the one-element multi-argument
branch. -/
def parse_multi_arg_flags : List String → Except PyErr (List Flag)
  | [] => Except.ok []
  | [f] =>
    match singleArgPathFlag f with
    | some fp => Except.ok [Flag.pair fp.1 fp.2]
    | none =>
      if MULTI_ARG_FLAGS.contains f then Except.error PyErr.multiFlagError
      else Except.ok [Flag.bare f]
  | f :: v :: rest2 =>
    match singleArgPathFlag f with
    | some fp =>
      (parse_multi_arg_flags (v :: rest2)).map (fun ts => Flag.pair fp.1 fp.2 :: ts)
    | none =>
      if MULTI_ARG_FLAGS.contains f then
        (parse_multi_arg_flags rest2).map (fun ts => Flag.pair f v :: ts)
      else (parse_multi_arg_flags (v :: rest2)).map (fun ts => Flag.bare f :: ts)

/-- CompilationDatabase._skip_useless_args: drop every token whose flag
spelling is in USELESS_FLAGS. -/
def skip_useless_args (ts : List Flag) : List Flag :=
  ts.filter (fun t => !(USELESS_FLAGS.contains (flagOf t)))

/-- True when the path string is absolute (starts with the separator). -/
def isAbsPath (s : String) : Bool :=
  match s.data with
  | [] => false
  | c :: _ => c == '/'

/-- Model of pathlib `wd / v`: an absolute right operand replaces the
left one; otherwise the components are concatenated. -/
def pathJoin (wd v : String) : String :=
  if isAbsPath v then v
  else if wd.data.getLast? = some '/' then wd ++ v
  else wd ++ "/" ++ v

/-- Model of Path.resolve: a relative path is resolved against the
process working directory; normalization and symlinks are abstracted
away, so an absolute path is returned unchanged. -/
def pathResolve (cwd p : String) : String :=
  if isAbsPath p then p else pathJoin cwd p

/-- Per-token body of _make_relative_paths_in_flags_absolute: the value
of a pair whose flag is in PATH_FLAGS becomes `str((wd / Path(value)).resolve())`;
every other token passes through. -/
def makeAbsFlag (cwd wd : String) : Flag → Flag
  | .bare s => .bare s
  | .pair f v =>
    if PATH_FLAGS.contains f then .pair f (pathResolve cwd (pathJoin wd v))
    else .pair f v

/-- CompilationDatabase._make_relative_paths_in_flags_absolute. -/
def make_relative_paths_in_flags_absolute (cwd wd : String) (ts : List Flag) : List Flag :=
  ts.map (makeAbsFlag cwd wd)

/-- CompilationDatabase._flatten_flags: a pair whose flag is in
SQUASH_FLAGS is rejoined into one string, any other pair yields its two
components in order, and a plain string passes through. -/
def flatten_flags : List Flag → List String
  | [] => []
  | .bare s :: r => s :: flatten_flags r
  | .pair f v :: r =>
    if SQUASH_FLAGS.contains f then (f ++ v) :: flatten_flags r
    else f :: v :: flatten_flags r

/-- Last index at which the character occurs, scanning with an
accumulator (os.path string rfind). -/
def lastIndexOfAux (c : Char) : List Char → Nat → Option Nat → Option Nat
  | [], _, acc => acc
  | x :: xs, i, acc => lastIndexOfAux c xs (i + 1) (if x = c then some i else acc)

/-- Model of os.path.splitext: split at the last dot of the final path
component, unless the component consists of leading dots only up to
that dot (so ".bashrc" has no extension). -/
def splitext (s : String) : String × String :=
  let cs := s.data
  match lastIndexOfAux '.' cs 0 none with
  | none => (s, "")
  | some d =>
    let si : Nat :=
      match lastIndexOfAux '/' cs 0 none with
      | none => 0
      | some i => i + 1
    if d < si then (s, "")
    else if ((cs.drop si).take (d - si)).any (fun ch => ch ≠ '.') then
      (⟨cs.take d⟩, ⟨cs.drop d⟩)
    else (s, "")

/-- Splits a character list on the separator, keeping empty chunks. -/
def splitCompsAux (cur : List Char) : List Char → List (List Char)
  | [] => [cur.reverse]
  | c :: cs => if c = '/' then cur.reverse :: splitCompsAux [] cs else splitCompsAux (c :: cur) cs

/-- Non-empty components of a path string. -/
def pathComponents (s : String) : List String :=
  ((splitCompsAux [] s.data).map (fun l => (⟨l⟩ : String))).filter (fun c => c ≠ "")

/-- Canonical rendering of an absolute path from its components. -/
def renderAbs (comps : List String) : String :=
  "/" ++ String.intercalate "/" comps

/-- Model of pathlib Path.parents for an absolute path: the ancestor
directories from the immediate parent up to the root. -/
def parentsOf (s : String) : List String :=
  let comps := pathComponents s
  (List.range comps.length).map (fun i => renderAbs (comps.take (comps.length - 1 - i)))

/-- Extension-related config section (used verbatim by the loader, no
conversion). -/
structure ExtCfg where
  headerL : Option (List String)
  sourceL : Option (List String)
deriving DecidableEq

/-- Raw flags.add / flags.remove entry as deserialized from YAML: a
scalar string or a flag list.  Lists are modelled at arity two, the
only arity the token pipeline produces and compares against. -/
inductive RawEntry
  | str (s : String)
  | list2 (a b : String)
deriving DecidableEq

/-- Raw flags section of a config document. -/
structure RawFlagsCfg where
  add : Option (List RawEntry)
  remove : Option (List RawEntry)
deriving DecidableEq

/-- Raw config document as deserialized from ycm_extra_conf.yml. -/
structure RawConfig where
  flags : Option RawFlagsCfg
  extensions : Option ExtCfg
deriving DecidableEq

/-- Converted flags section: entries are tokens comparable with parsed
flags. -/
structure FlagsCfg where
  add : Option (List Flag)
  remove : Option (List Flag)
deriving DecidableEq

/-- Loaded config document after the list-to-tuple conversion performed
by FileManager._find_config_for_db. -/
structure Config where
  flags : Option FlagsCfg
  extensions : Option ExtCfg
deriving DecidableEq

/-- The list-to-tuple conversion applied to each flags.add and
flags.remove entry at load time: a YAML list becomes a tuple, a plain
string stays a string. -/
def convertEntry : RawEntry → Flag
  | .str s => Flag.bare s
  | .list2 a b => Flag.pair a b

/-- FileManager._find_config_for_db conversion step over a whole raw
config document. -/
def convertConfig (r : RawConfig) : Config where
  flags := r.flags.map (fun fc => ⟨fc.add.map (List.map convertEntry),
                                   fc.remove.map (List.map convertEntry)⟩)
  extensions := r.extensions

/-- Result of ycm_core GetCompilationInfoForFile: the raw compiler
argument vector and the compiler working directory (empty string for a
falsy working directory). -/
structure CompInfo where
  flags : List String
  wd : String
deriving DecidableEq

/-- Abstract filesystem and external-index state: existence of paths,
regular-file tests for database files, the parsed config document
present at a directory (folding the is_file check and the YAML load of
ycm_extra_conf.yml into one query), the compilation-index lookup per
database directory, and the process working directory. -/
structure FS where
  fexists : String → Bool
  isFile : String → Bool
  configAt : String → Option RawConfig
  compdb : String → String → CompInfo
  cwd : String

/-- A constructed CompilationDatabase object: the database directory,
the config handed to the constructor, and the header/source extension
sets resolved from the config (config overrides replace the defaults). -/
structure DB where
  dir : String
  config : Config
  headerExts : List String
  sourceExts : List String
deriving DecidableEq

/-- CompilationDatabase.__init__: stores the config and resolves the
extension sets.  A None config raises TypeError, because the source
evaluates the expression consisting of the string literal extensions,
the in operator and the config value, which is not allowed on None. -/
def CompilationDatabase_init (directory : String) (config : Option Config) : Except PyErr DB :=
  match config with
  | none => Except.error PyErr.typeError
  | some c =>
    let hx := match c.extensions with
      | some e => match e.headerL with
        | some l => l
        | none => HEADER_EXTS
      | none => HEADER_EXTS
    let sx := match c.extensions with
      | some e => match e.sourceL with
        | some l => l
        | none => SOURCE_EXTS
      | none => SOURCE_EXTS
    Except.ok ⟨directory, c, hx, sx⟩

/-- Remove step of get_flags_for_file: when the config has a remove
key, filter out every token present in the remove set. -/
def applyRemove : Option (List Flag) → List Flag → List Flag
  | none, ts => ts
  | some rem, ts => ts.filter (fun t => !(rem.contains t))

/-- Add step of get_flags_for_file: when the config has an add key,
append its entries after the filtered tokens. -/
def applyAdd : Option (List Flag) → List Flag → List Flag
  | none, ts => ts
  | some add, ts => ts ++ add

/-- Config application step of get_flags_for_file: when the config has
a flags section, first the remove filter, then the add append. -/
def applyConfigFlags (c : Config) (ts : List Flag) : List Flag :=
  match c.flags with
  | none => ts
  | some fc => applyAdd fc.add (applyRemove fc.remove ts)

/-- Non-header branch of get_flags_for_file: query the index, return
None on an empty raw vector, otherwise run the pipeline: parse, skip
useless, apply config, absolutize (skipped for a falsy working
directory), flatten. -/
def get_flags_direct (fs : FS) (db : DB) (filename : String) :
    Except PyErr (Option (List String)) :=
  let ci := fs.compdb db.dir filename
  if ci.flags = [] then Except.ok none
  else
    match parse_multi_arg_flags ci.flags with
    | Except.error e => Except.error e
    | Except.ok ts =>
      let ts1 := applyConfigFlags db.config (skip_useless_args ts)
      let ts2 := if ci.wd = "" then ts1
                 else make_relative_paths_in_flags_absolute fs.cwd ci.wd ts1
      Except.ok (some (flatten_flags ts2))

/-- One iteration of the candidate loop in get_flags_for_file: a
recursive result that is truthy (a non-empty list) is returned, an
exception or exhausted fuel propagates, and a falsy result (None or the
empty list) falls through to the remaining candidates. -/
def tryStep (r acc : Option (Except PyErr (Option (List String)))) :
    Option (Except PyErr (Option (List String))) :=
  match r with
  | none => none
  | some (Except.error er) => some (Except.error er)
  | some (Except.ok (some (x :: l))) => some (Except.ok (some (x :: l)))
  | some (Except.ok _) => acc

/-- CompilationDatabase.get_flags_for_file with explicit recursion
fuel: a filename whose extension is in the header set recursively tries
each source extension in order on the shared basename, returning the
first truthy (non-None, non-empty) result, or None when all candidates
fall through.  The fuel bounds the recursion depth of the source, whose
recursion is unbounded when the extension sets overlap; `none` models a
computation that exceeds the given depth. -/
def get_flags_for_file (fs : FS) (db : DB) :
    Nat → String → Option (Except PyErr (Option (List String)))
  | 0, _ => none
  | n + 1, filename =>
    let ne := splitext filename
    if db.headerExts.contains ne.2 then
      db.sourceExts.foldr
        (fun e acc => tryStep (get_flags_for_file fs db n (ne.1 ++ e)) acc)
        (some (Except.ok none))
    else some (get_flags_direct fs db filename)

/-- FileManager cache state: the directory-to-database and
directory-to-config dictionaries (newest binding first; dictionary
lookup takes the newest). -/
structure St where
  dbs : List (String × DB)
  configs : List (String × Config)
deriving DecidableEq

/-- Walk of FileManager._find_config_for_db over the chain of the
database directory and its parents: return a cached config for the
first cached directory, else load and cache the config of the first
directory holding a config file, else fall through with None and no
cache update. -/
def findConfigWalk (fs : FS) (st : St) : List String → Option Config × St
  | [] => (none, st)
  | p :: ps =>
    match st.configs.lookup p with
    | some c => (some c, st)
    | none =>
      match fs.configAt p with
      | some raw =>
        let c := convertConfig raw
        (some c, { st with configs := (p, c) :: st.configs })
      | none => findConfigWalk fs st ps

/-- FileManager._find_config_for_db. -/
def find_config_for_db (fs : FS) (st : St) (dbDir : String) : Option Config × St :=
  findConfigWalk fs st (dbDir :: parentsOf dbDir)

/-- Walk of FileManager.find_db_for_file over the parents of the query
file: the first cached directory wins (left), else the first directory
holding compile_commands.json is the new database root (right), else
nothing. -/
def findDbWalk (fs : FS) (st : St) : List String → Option (DB ⊕ String)
  | [] => none
  | p :: ps =>
    match st.dbs.lookup p with
    | some db => some (Sum.inl db)
    | none =>
      if fs.isFile (pathJoin p "compile_commands.json") then some (Sum.inr p)
      else findDbWalk fs st ps

/-- FileManager.find_db_for_file: reject non-existent paths before any
walk; otherwise walk the parents of the absolutized path; on a cache
hit return the cached database unchanged; on a fresh database root,
first resolve its config (updating the config cache), then construct
the database (which raises TypeError when the config is None) and cache
it. -/
def find_db_for_file (fs : FS) (st : St) (filename : String) :
    Except PyErr (Option DB) × St :=
  if fs.fexists filename = false then (Except.ok none, st)
  else
    let p := if isAbsPath filename then filename else pathJoin fs.cwd filename
    match findDbWalk fs st (parentsOf p) with
    | none => (Except.ok none, st)
    | some (Sum.inl db) => (Except.ok (some db), st)
    | some (Sum.inr found) =>
      let cs := find_config_for_db fs st found
      match CompilationDatabase_init found cs.1 with
      | Except.error e => (Except.error e, cs.2)
      | Except.ok db => (Except.ok (some db), { cs.2 with dbs := (found, db) :: cs.2.dbs })

/-- The dictionary returned by c_settings: the resolved flags and the
optional do_cache key (absent on the NoFlagsFound path). -/
structure SettingsResult where
  flags : List String
  do_cache : Option Bool
deriving DecidableEq

/-- The entry point c_settings: failures of the NoFlagsFound kind (no
database, or a falsy flags result) are caught and become a result with
empty flags and no do_cache key; any other exception escapes as an
error.  The outer Option is the recursion fuel of get_flags_for_file. -/
def c_settings (fs : FS) (fuel : Nat) (st : St) (filename : String) :
    Option (Except PyErr SettingsResult) × St :=
  match find_db_for_file fs st filename with
  | (Except.error e, st1) => (some (Except.error e), st1)
  | (Except.ok none, st1) => (some (Except.ok ⟨[], none⟩), st1)
  | (Except.ok (some db), st1) =>
    match get_flags_for_file fs db fuel filename with
    | none => (none, st1)
    | some (Except.error e) => (some (Except.error e), st1)
    | some (Except.ok none) => (some (Except.ok ⟨[], none⟩), st1)
    | some (Except.ok (some [])) => (some (Except.ok ⟨[], none⟩), st1)
    | some (Except.ok (some (x :: l))) => (some (Except.ok ⟨x :: l, some true⟩), st1)

/-- The four flag spellings accepted in joined single-argument form by
the SINGLE_ARG_PATH_FLAG regex. -/
def JOINED_FORM_FLAGS : List String := ["-I", "-L", "--sysroot=", "-iplugindir="]

/-- The flags.add entries a config contributes to the pipeline (empty
when the config has no flags section or no add key). -/
def addedFlags (c : Config) : List Flag :=
  match c.flags with
  | none => []
  | some fc => fc.add.getD []

/-- Restriction on one argument under which tokenize-then-flatten is
the identity: if the argument matches the joined-form regex, the
matched flag group is a squash flag (so flattening rejoins it). -/
def joinedSquashOnly (a : String) : Prop :=
  match singleArgPathFlag a with
  | some fp => SQUASH_FLAGS.contains fp.1 = true
  | none => True

instance (a : String) : Decidable (joinedSquashOnly a) :=
  match h : singleArgPathFlag a with
  | some fp =>
    decidable_of_iff (SQUASH_FLAGS.contains fp.1 = true)
      (by unfold joinedSquashOnly; rw [h])
  | none => decidable_of_iff True (by unfold joinedSquashOnly; rw [h])

/-- Empty FileManager state, as after FileManager.__init__. -/
def st0 : St := ⟨[], []⟩

/-- Config for the end-to-end scenario: remove -DX=1, add -Wall. -/
def cfgC1 : Config := ⟨some ⟨some [Flag.bare "-Wall"], some [Flag.bare "-DX=1"]⟩, none⟩

/-- Database object for the end-to-end scenario, rooted at /proj. -/
def dbC1 : DB := ⟨"/proj", cfgC1, HEADER_EXTS, SOURCE_EXTS⟩

/-- Filesystem for the end-to-end scenario: one source file whose
compilation entry is the raw vector of the claim with working
directory /proj. -/
def fsC1 : FS where
  fexists := fun s => s == "/proj/main.cpp"
  isFile := fun s => s == "/proj/compile_commands.json"
  configAt := fun _ => none
  compdb := fun d f =>
    if d == "/proj" && f == "/proj/main.cpp" then ⟨["-Ifoo", "-DX=1", "-o", "out.o"], "/proj"⟩
    else ⟨[], ""⟩
  cwd := "/"

/-- Filesystem for the propagation scenario: the compilation entry for
/p/a.c ends in a multi-argument flag with no value, and a config file
is present so that construction succeeds. -/
def fsC3 : FS where
  fexists := fun s => s == "/p/a.c"
  isFile := fun s => s == "/p/compile_commands.json"
  configAt := fun d => if d == "/p" then some ⟨none, none⟩ else none
  compdb := fun d f => if d == "/p" && f == "/p/a.c" then ⟨["-include"], ""⟩ else ⟨[], ""⟩
  cwd := "/"

/-- Database object of the propagation scenario. -/
def dbC3 : DB := ⟨"/p", ⟨none, none⟩, HEADER_EXTS, SOURCE_EXTS⟩

/-- FileManager state after the propagation scenario located and cached
its database and config. -/
def stC3 : St := ⟨[("/p", dbC3)], [("/p", ⟨none, none⟩)]⟩

/-- Filesystem on which no query path exists; database files are
reported everywhere, so any ancestor walk that did happen would find a
database. -/
def fsC8 : FS where
  fexists := fun _ => false
  isFile := fun _ => true
  configAt := fun _ => none
  compdb := fun _ _ => ⟨["-Wall"], ""⟩
  cwd := "/"

/-- Config whose flags.add reintroduces the useless flag -o. -/
def cfgC5 : Config := ⟨some ⟨some [Flag.bare "-o"], none⟩, none⟩

/-- Database object for the useless-flag scenario. -/
def dbC5 : DB := ⟨"/p", cfgC5, HEADER_EXTS, SOURCE_EXTS⟩

/-- Filesystem for the useless-flag scenario. -/
def fsC5 : FS where
  fexists := fun s => s == "/p/a.c"
  isFile := fun s => s == "/p/compile_commands.json"
  configAt := fun _ => none
  compdb := fun d f => if d == "/p" && f == "/p/a.c" then ⟨["-Wall"], ""⟩ else ⟨[], ""⟩
  cwd := "/"

/-- Config overriding the source extension set with [.cpp, .cc]. -/
def cfgC6 : Config := ⟨none, some ⟨none, some [".cpp", ".cc"]⟩⟩

/-- Database object for the header-fallback scenario. -/
def dbC6 : DB := ⟨"/p", cfgC6, HEADER_EXTS, [".cpp", ".cc"]⟩

/-- Filesystem for the header-fallback scenario: the first candidate
/p/n.cpp has a non-empty raw vector that the pipeline filters down to
nothing, the second candidate /p/n.cc has usable flags. -/
def fsC6 : FS where
  fexists := fun s => s == "/p/n.h"
  isFile := fun s => s == "/p/compile_commands.json"
  configAt := fun _ => none
  compdb := fun d f =>
    if d == "/p" && f == "/p/n.cpp" then ⟨["-o", "out"], ""⟩
    else if d == "/p" && f == "/p/n.cc" then ⟨["-Wall"], ""⟩
    else ⟨[], ""⟩
  cwd := "/"

/-- Loaded config document of the caching scenario (no keys). -/
def cfgC7 : Config := ⟨none, none⟩

/-- Filesystem for the caching scenario: the database root is /a/b and
the only config file lives at the filesystem root. -/
def fsC7 : FS where
  fexists := fun s => s == "/a/b/f.c"
  isFile := fun s => s == "/a/b/compile_commands.json"
  configAt := fun d => if d == "/" then some ⟨none, none⟩ else none
  compdb := fun _ _ => ⟨[], ""⟩
  cwd := "/"

/-- Database object of the caching scenario. -/
def dbC7 : DB := ⟨"/a/b", cfgC7, HEADER_EXTS, SOURCE_EXTS⟩

/-- Filesystem for the memoization witness: /p/s/a.c exists, no
database file anywhere below the already-cached root. -/
def fsW7 : FS where
  fexists := fun s => s == "/p/s/a.c"
  isFile := fun _ => false
  configAt := fun _ => none
  compdb := fun _ _ => ⟨[], ""⟩
  cwd := "/"

/-- State in which the root /p is already resolved to a database. -/
def stW7 : St := ⟨[("/p", ⟨"/p", cfgC7, HEADER_EXTS, SOURCE_EXTS⟩)], []⟩

/-- A successful joined-form strip reassembles to the original
argument. -/
theorem stripJoined_append {fl s : String} {fp : String × String}
    (h : stripJoined fl s = some fp) : fp.1 ++ fp.2 = s := by
  unfold stripJoined at h
  split at h
  case isFalse => exact absurd h (by simp)
  case isTrue hc =>
    injection h with h1
    subst h1
    obtain ⟨hpre, _⟩ := hc
    obtain ⟨t, ht⟩ := List.isPrefixOf_iff_prefix.mp hpre
    obtain ⟨d⟩ := s
    obtain ⟨dl⟩ := fl
    dsimp only at ht
    show String.mk (dl ++ (d.drop dl.length)) = String.mk d
    rw [← ht, List.drop_left]

/-- A joined-form match reassembles to the original argument. -/
theorem singleArg_append {s : String} {fp : String × String}
    (h : singleArgPathFlag s = some fp) : fp.1 ++ fp.2 = s := by
  unfold singleArgPathFlag at h
  split at h
  next _ fp2 heq =>
    injection h with h2
    subst h2
    exact stripJoined_append heq
  next =>
    split at h
    next _ fp2 heq =>
      injection h with h2
      subst h2
      exact stripJoined_append heq
    next =>
      split at h
      next _ fp2 heq =>
        injection h with h2
        subst h2
        exact stripJoined_append heq
      next => exact stripJoined_append h

/-- Claim C1: for the raw argument vector [-Ifoo, -DX=1, -o, out.o]
with working directory /proj and a config removing -DX=1 and adding
-Wall, the get_flags_for_file pipeline returns exactly
[-I/proj/foo, -Wall]. -/
theorem end_to_end_pipeline :
    fsC1.compdb "/proj" "/proj/main.cpp" = ⟨["-Ifoo", "-DX=1", "-o", "out.o"], "/proj"⟩ ∧
    dbC1.config = ⟨some ⟨some [Flag.bare "-Wall"], some [Flag.bare "-DX=1"]⟩, none⟩ ∧
    get_flags_for_file fsC1 dbC1 1 "/proj/main.cpp" =
      some (Except.ok (some ["-I/proj/foo", "-Wall"])) := by decide

/-- Claim C2, counterexample: the path flag -I is tokenized as a single
pair in joined form, but its two-element split form stays two bare
tokens, because -I is not in MULTI_ARG_FLAGS. -/
theorem split_form_not_tokenized :
    PATH_FLAGS.contains "-I" = true ∧
    parse_multi_arg_flags ["-Ifoo"] = Except.ok [Flag.pair "-I" "foo"] ∧
    parse_multi_arg_flags ["-I", "foo"] = Except.ok [Flag.bare "-I", Flag.bare "foo"] ∧
    ([Flag.bare "-I", Flag.bare "foo"] : List Flag) ≠ [Flag.pair "-I" "foo"] := by decide

/-- Claim C2, amended: a path flag also in MULTI_ARG_FLAGS tokenizes
from split form; a path flag matched by the joined-form regex tokenizes
from joined form; the two sub-families are disjoint, so no path flag
supports both forms. -/
theorem path_flag_forms :
    (∀ F, F ∈ PATH_FLAGS → F ∈ MULTI_ARG_FLAGS →
      parse_multi_arg_flags [F, "foo"] = Except.ok [Flag.pair F "foo"]) ∧
    (∀ F, F ∈ JOINED_FORM_FLAGS →
      parse_multi_arg_flags [F ++ "foo"] = Except.ok [Flag.pair F "foo"]) ∧
    (∀ F, F ∈ JOINED_FORM_FLAGS → F ∈ PATH_FLAGS ∧ F ∉ MULTI_ARG_FLAGS) ∧
    (∀ F, F ∈ PATH_FLAGS → F ∈ MULTI_ARG_FLAGS ∨ F ∈ JOINED_FORM_FLAGS) := by decide

/-- Witness for path_flag_forms at the split flag -isystem and the
joined flag -I. -/
theorem path_flag_forms_witness :
    parse_multi_arg_flags ["-isystem", "foo"] = Except.ok [Flag.pair "-isystem" "foo"] ∧
    parse_multi_arg_flags ["-Ifoo"] = Except.ok [Flag.pair "-I" "foo"] :=
  ⟨path_flag_forms.1 "-isystem" (by decide) (by decide),
   path_flag_forms.2.1 "-I" (by decide)⟩

/-- Claim C8: a query path that does not exist on the filesystem yields
the empty result with no do_cache key, with the cache state unchanged,
for every cache state and every filesystem content beyond the existence
bit, so no ancestor walk can influence the outcome. -/
theorem nonexistent_file_short_circuit (fs : FS) (fuel : Nat) (st : St) (fn : String)
    (h : fs.fexists fn = false) :
    c_settings fs fuel st fn = (some (Except.ok ⟨[], none⟩), st) := by
  have h1 : find_db_for_file fs st fn = (Except.ok none, st) := by
    unfold find_db_for_file
    rw [h]
    exact if_pos rfl
  unfold c_settings
  rw [h1]

/-- Witness for nonexistent_file_short_circuit on a filesystem that
reports a database file in every directory. -/
theorem nonexistent_file_short_circuit_witness :
    c_settings fsC8 3 st0 "/nope/file.c" = (some (Except.ok ⟨[], none⟩), st0) :=
  nonexistent_file_short_circuit fsC8 3 st0 "/nope/file.c" (by decide)

/-- Claim C10: a flags.remove entry that is a plain string never
removes a (flag, value) pair, a two-element entry removes exactly the
tokens equal to its pair, and the loader converts two-element lists to
pairs and keeps strings as strings: removal is exact whole-token
matching. -/
theorem remove_granularity (s a b : String) (ts : List Flag) :
    (∀ f v, Flag.pair f v ∈ applyConfigFlags ⟨some ⟨none, some [Flag.bare s]⟩, none⟩ ts ↔
      Flag.pair f v ∈ ts) ∧
    (∀ t, t ∈ applyConfigFlags ⟨some ⟨none, some [Flag.pair a b]⟩, none⟩ ts ↔
      t ∈ ts ∧ t ≠ Flag.pair a b) ∧
    convertEntry (RawEntry.list2 a b) = Flag.pair a b ∧
    convertEntry (RawEntry.str s) = Flag.bare s := by
  refine ⟨?_, ?_, rfl, rfl⟩
  · intro f v
    show Flag.pair f v ∈ ts.filter (fun u => !([Flag.bare s].contains u)) ↔ Flag.pair f v ∈ ts
    rw [List.mem_filter]
    exact ⟨fun h => h.1, fun h => ⟨h, rfl⟩⟩
  · intro t
    show t ∈ ts.filter (fun u => !([Flag.pair a b].contains u)) ↔ t ∈ ts ∧ t ≠ Flag.pair a b
    rw [List.mem_filter]
    constructor
    · rintro ⟨h1, h2⟩
      refine ⟨h1, ?_⟩
      intro he
      subst he
      simp [List.contains] at h2
    · rintro ⟨h1, h2⟩
      refine ⟨h1, ?_⟩
      have hc : ([Flag.pair a b].contains t) = false := by
        simp [List.contains, h2]
      rw [hc]
      rfl

/-- Witness for remove_granularity: a bare -I remove entry leaves the
pair (-I, x) in place. -/
theorem remove_granularity_witness :
    Flag.pair "-I" "x" ∈
      applyConfigFlags ⟨some ⟨none, some [Flag.bare "-I"]⟩, none⟩ [Flag.pair "-I" "x"] :=
  ((remove_granularity "-I" "f" "v" [Flag.pair "-I" "x"]).1 "-I" "x").mpr (by decide)

/-- Appending to an absolute path keeps it absolute. -/
theorem isAbsPath_append {a : String} (b : String) (h : isAbsPath a = true) :
    isAbsPath (a ++ b) = true := by
  obtain ⟨da⟩ := a
  obtain ⟨db⟩ := b
  cases da with
  | nil => exact absurd h (by decide)
  | cons c cs => exact h

/-- Joining onto an absolute working directory yields an absolute path. -/
theorem isAbsPath_pathJoin {wd : String} (v : String) (h : isAbsPath wd = true) :
    isAbsPath (pathJoin wd v) = true := by
  unfold pathJoin
  split
  next hv => exact hv
  next hv =>
    split
    · exact isAbsPath_append v h
    · exact isAbsPath_append v (isAbsPath_append "/" h)

/-- Joining with an absolute right operand keeps the right operand. -/
theorem pathJoin_absRight {v : String} (wd : String) (h : isAbsPath v = true) :
    pathJoin wd v = v := by
  unfold pathJoin
  rw [h]
  exact if_pos rfl

/-- Resolving an absolute path is the identity. -/
theorem pathResolve_abs {p : String} (cwd : String) (h : isAbsPath p = true) :
    pathResolve cwd p = p := by
  unfold pathResolve
  rw [h]
  exact if_pos rfl

/-- Unfolding of the absolutization step at a path-flag pair. -/
theorem makeAbsFlag_pair_pos (cwd wd f v : String) (hf : PATH_FLAGS.contains f = true) :
    makeAbsFlag cwd wd (Flag.pair f v) = Flag.pair f (pathResolve cwd (pathJoin wd v)) := by
  show (if PATH_FLAGS.contains f = true then Flag.pair f (pathResolve cwd (pathJoin wd v))
        else Flag.pair f v) = Flag.pair f (pathResolve cwd (pathJoin wd v))
  rw [hf]
  exact if_pos rfl

/-- Unfolding of the absolutization step at a non-path pair. -/
theorem makeAbsFlag_pair_neg (cwd wd f v : String) (hf : PATH_FLAGS.contains f = false) :
    makeAbsFlag cwd wd (Flag.pair f v) = Flag.pair f v := by
  show (if PATH_FLAGS.contains f = true then Flag.pair f (pathResolve cwd (pathJoin wd v))
        else Flag.pair f v) = Flag.pair f v
  rw [hf]
  exact if_neg (by simp)

/-- One absolutization pass makes every rewritten value absolute, so a
second pass changes nothing, token by token. -/
theorem makeAbsFlag_idem {wd : String} (cwd : String) (h : isAbsPath wd = true) (t : Flag) :
    makeAbsFlag cwd wd (makeAbsFlag cwd wd t) = makeAbsFlag cwd wd t := by
  cases t with
  | bare s => rfl
  | pair f v =>
    cases hf : PATH_FLAGS.contains f with
    | false =>
      rw [makeAbsFlag_pair_neg cwd wd f v hf]
      exact makeAbsFlag_pair_neg cwd wd f v hf
    | true =>
      have hv2 : isAbsPath (pathResolve cwd (pathJoin wd v)) = true := by
        rw [pathResolve_abs cwd (isAbsPath_pathJoin v h)]
        exact isAbsPath_pathJoin v h
      rw [makeAbsFlag_pair_pos cwd wd f v hf]
      rw [makeAbsFlag_pair_pos cwd wd f (pathResolve cwd (pathJoin wd v)) hf]
      rw [pathJoin_absRight wd hv2, pathResolve_abs cwd hv2]

/-- Claim C9: the absolutization stage resolves the value of a pair
token whose flag is in PATH_FLAGS against the working directory when
the value is relative, leaves absolute values, non-path pairs and bare
tokens unchanged, and applying the stage twice equals applying it once,
whenever the working directory is absolute (Path.resolve guarantees an
absolute result; relative working directories do not occur because the
process working directory of resolve is absolute). -/
theorem absolutize_spec (cwd wd : String) (hwd : isAbsPath wd = true) (ts : List Flag) :
    (∀ s, makeAbsFlag cwd wd (Flag.bare s) = Flag.bare s) ∧
    (∀ f v, PATH_FLAGS.contains f = false →
      makeAbsFlag cwd wd (Flag.pair f v) = Flag.pair f v) ∧
    (∀ f v, PATH_FLAGS.contains f = true → isAbsPath v = true →
      makeAbsFlag cwd wd (Flag.pair f v) = Flag.pair f v) ∧
    (∀ f v, PATH_FLAGS.contains f = true → isAbsPath v = false →
      makeAbsFlag cwd wd (Flag.pair f v) = Flag.pair f (pathJoin wd v)) ∧
    make_relative_paths_in_flags_absolute cwd wd
        (make_relative_paths_in_flags_absolute cwd wd ts) =
      make_relative_paths_in_flags_absolute cwd wd ts := by
  refine ⟨fun s => rfl, ?_, ?_, ?_, ?_⟩
  · intro f v hf
    exact makeAbsFlag_pair_neg cwd wd f v hf
  · intro f v hf hv
    rw [makeAbsFlag_pair_pos cwd wd f v hf, pathJoin_absRight wd hv, pathResolve_abs cwd hv]
  · intro f v hf _
    rw [makeAbsFlag_pair_pos cwd wd f v hf, pathResolve_abs cwd (isAbsPath_pathJoin v hwd)]
  · unfold make_relative_paths_in_flags_absolute
    induction ts with
    | nil => rfl
    | cons x xs ih =>
      simp only [List.map_cons]
      rw [makeAbsFlag_idem cwd hwd x, ih]

/-- Witness for absolutize_spec: a relative include path under /proj. -/
theorem absolutize_spec_witness :
    make_relative_paths_in_flags_absolute "/" "/proj"
        (make_relative_paths_in_flags_absolute "/" "/proj" [Flag.pair "-I" "foo"]) =
      make_relative_paths_in_flags_absolute "/" "/proj" [Flag.pair "-I" "foo"] :=
  (absolutize_spec "/" "/proj" (by decide) [Flag.pair "-I" "foo"]).2.2.2.2

/-- Absolutization never changes the flag spelling of a token. -/
theorem flagOf_makeAbsFlag (cwd wd : String) (t : Flag) :
    flagOf (makeAbsFlag cwd wd t) = flagOf t := by
  cases t with
  | bare s => rfl
  | pair f v =>
    cases hf : PATH_FLAGS.contains f with
    | false => rw [makeAbsFlag_pair_neg cwd wd f v hf]
    | true =>
      rw [makeAbsFlag_pair_pos cwd wd f v hf]
      rfl

/-- The remove step only drops tokens. -/
theorem mem_applyRemove {rem : Option (List Flag)} {ts : List Flag} {t : Flag}
    (h : t ∈ applyRemove rem ts) : t ∈ ts := by
  cases rem with
  | none => exact h
  | some r => exact (List.mem_filter.mp h).1

/-- The add step only appends the add entries. -/
theorem mem_applyAdd {add : Option (List Flag)} {ts : List Flag} {t : Flag}
    (h : t ∈ applyAdd add ts) : t ∈ ts ∨ t ∈ add.getD [] := by
  cases add with
  | none => exact Or.inl h
  | some a => exact List.mem_append.mp h

/-- Every token surviving the config step was in the input or came from
the flags.add entries. -/
theorem mem_applyConfigFlags {c : Config} {ts : List Flag} {t : Flag}
    (h : t ∈ applyConfigFlags c ts) : t ∈ ts ∨ t ∈ addedFlags c := by
  unfold applyConfigFlags at h
  unfold addedFlags
  cases hc : c.flags with
  | none =>
    rw [hc] at h
    exact Or.inl h
  | some fc =>
    rw [hc] at h
    rcases mem_applyAdd h with h1 | h1
    · exact Or.inl (mem_applyRemove h1)
    · exact Or.inr h1

/-- Tokens surviving the useless filter have a non-useless spelling. -/
theorem mem_skip_useless {ts : List Flag} {t : Flag} (h : t ∈ skip_useless_args ts) :
    USELESS_FLAGS.contains (flagOf t) = false := by
  have h2 := (List.mem_filter.mp h).2
  simpa using h2

/-- Claim C5, counterexample: with raw flags [-Wall] and a config whose
flags.add is [-o], the final resolved flag list of get_flags_for_file
contains the useless spelling -o, because config additions are appended
after the useless filter ran. -/
theorem useless_flag_reintroduced :
    USELESS_FLAGS.contains "-o" = true ∧
    cfgC5.flags = some ⟨some [Flag.bare "-o"], none⟩ ∧
    get_flags_for_file fsC5 dbC5 1 "/p/a.c" = some (Except.ok (some ["-Wall", "-o"])) ∧
    "-o" ∈ ["-Wall", "-o"] := by decide

/-- Claim C5, amended: after the useless filter, through config
remove/add and absolutization, no token has a useless flag spelling,
provided the config flags.add entries themselves have none; only a
flags.add entry (or a useless spelling sitting in the value slot of
another flag at flatten time) can put a useless spelling back into the
final list. -/
theorem useless_flags_stay_removed (cfg : Config) (cwd wd : String) (ts : List Flag)
    (hadd : ∀ t ∈ addedFlags cfg, USELESS_FLAGS.contains (flagOf t) = false) :
    ∀ t ∈ make_relative_paths_in_flags_absolute cwd wd
        (applyConfigFlags cfg (skip_useless_args ts)),
      USELESS_FLAGS.contains (flagOf t) = false := by
  intro t ht
  unfold make_relative_paths_in_flags_absolute at ht
  obtain ⟨u, hu, rfl⟩ := List.mem_map.mp ht
  rw [flagOf_makeAbsFlag]
  rcases mem_applyConfigFlags hu with h1 | h1
  · exact mem_skip_useless h1
  · exact hadd u h1

/-- Witness for useless_flags_stay_removed: the -o pair is dropped and
the added -Wall survives with a non-useless spelling. -/
theorem useless_flags_stay_removed_witness :
    USELESS_FLAGS.contains (flagOf (Flag.bare "-Wall")) = false :=
  useless_flags_stay_removed cfgC1 "/" "/proj" [Flag.pair "-o" "x"] (by decide)
    (Flag.bare "-Wall") (by decide)

/-- Claim C3, counterexample: on a database entry whose raw vector ends
in a multi-argument flag with no value, c_settings terminates with the
tokenizer exception instead of any result dictionary: the failure
crosses the boundary. -/
theorem tokenizer_error_escapes :
    (c_settings fsC3 2 st0 "/p/a.c").1 = some (Except.error PyErr.multiFlagError) ∧
    some (Except.error PyErr.multiFlagError) ≠
      some (Except.ok ({ flags := [], do_cache := none } : SettingsResult)) := by decide

/-- Claim C3, amended: c_settings catches exactly the NoFlagsFound
conditions (no database, a None flags result, an empty flags result)
and converts them to the empty dictionary without a do_cache key; an
exception raised inside get_flags_for_file, such as the tokenizer
MultiFlagError, is not caught and escapes to the host. -/
theorem boundary_error_conversion (fs : FS) (fuel : Nat) (st : St) (fn : String) :
    (∀ st1, find_db_for_file fs st fn = (Except.ok none, st1) →
      c_settings fs fuel st fn = (some (Except.ok ⟨[], none⟩), st1)) ∧
    (∀ db st1, find_db_for_file fs st fn = (Except.ok (some db), st1) →
      get_flags_for_file fs db fuel fn = some (Except.ok none) →
      c_settings fs fuel st fn = (some (Except.ok ⟨[], none⟩), st1)) ∧
    (∀ db st1, find_db_for_file fs st fn = (Except.ok (some db), st1) →
      get_flags_for_file fs db fuel fn = some (Except.ok (some [])) →
      c_settings fs fuel st fn = (some (Except.ok ⟨[], none⟩), st1)) ∧
    (∀ db st1 e, find_db_for_file fs st fn = (Except.ok (some db), st1) →
      get_flags_for_file fs db fuel fn = some (Except.error e) →
      c_settings fs fuel st fn = (some (Except.error e), st1)) := by
  refine ⟨?_, ?_, ?_, ?_⟩
  · intro st1 h
    unfold c_settings
    rw [h]
  · intro db st1 h hg
    unfold c_settings
    rw [h]
    dsimp only
    rw [hg]
  · intro db st1 h hg
    unfold c_settings
    rw [h]
    dsimp only
    rw [hg]
  · intro db st1 e h hg
    unfold c_settings
    rw [h]
    dsimp only
    rw [hg]

/-- Witness for boundary_error_conversion: the propagation branch at
the concrete malformed database entry. -/
theorem boundary_error_conversion_witness :
    c_settings fsC3 2 st0 "/p/a.c" = (some (Except.error PyErr.multiFlagError), stC3) :=
  (boundary_error_conversion fsC3 2 st0 "/p/a.c").2.2.2 dbC3 stC3 PyErr.multiFlagError
    (by decide) (by decide)

/-- Claim C6, counterexample: for header /p/n.h with candidate order
[.cpp, .cc], the first candidate /p/n.cpp has a non-empty raw vector in
the index, yet resolution returns the flags of /p/n.cc, because the
fallback tests the processed result for truthiness, not the raw index
vector. -/
theorem header_fallback_counterexample :
    (fsC6.compdb "/p" "/p/n.cpp").flags = ["-o", "out"] ∧
    get_flags_direct fsC6 dbC6 "/p/n.cpp" = Except.ok (some []) ∧
    get_flags_for_file fsC6 dbC6 2 "/p/n.h" = some (Except.ok (some ["-Wall"])) ∧
    dbC6.sourceExts = [".cpp", ".cc"] ∧
    CompilationDatabase_init "/p" (some cfgC6) = Except.ok dbC6 ∧
    (["-Wall"] : List String) ≠ ["-o", "out"] ∧ (["-Wall"] : List String) ≠ [] := by decide

/-- Candidates whose recursive result is falsy (None or the empty
list) fall through the candidate loop. -/
theorem foldr_tryStep_skip (fs : FS) (db : DB) (n : Nat) (name : String)
    (acc : Option (Except PyErr (Option (List String)))) :
    ∀ pre : List String,
    (∀ e2 ∈ pre, get_flags_for_file fs db n (name ++ e2) = some (Except.ok none) ∨
      get_flags_for_file fs db n (name ++ e2) = some (Except.ok (some []))) →
    List.foldr (fun e acc => tryStep (get_flags_for_file fs db n (name ++ e)) acc) acc pre =
      acc := by
  intro pre
  induction pre with
  | nil => intro _; rfl
  | cons p ps ih =>
    intro hp
    rw [List.foldr_cons]
    rw [ih (fun d hd => hp d (by simp [hd]))]
    rcases hp p (by simp) with h | h
    · rw [h]
      rfl
    · rw [h]
      rfl

/-- Claim C6, amended: for a header-classified filename, resolution
tries the candidates name plus source extension in order and returns
the first whose full recursive resolution (the processed pipeline
result, not the raw index vector) is a non-empty list; earlier
candidates whose processed result is None or empty are skipped. -/
theorem header_fallback_first_truthy (fs : FS) (db : DB) (n : Nat)
    (fn name ext e : String) (pre post : List String) (l : List String)
    (hsplit : splitext fn = (name, ext))
    (hhdr : db.headerExts.contains ext = true)
    (hexts : db.sourceExts = pre ++ e :: post)
    (hpre : ∀ e2 ∈ pre, get_flags_for_file fs db n (name ++ e2) = some (Except.ok none) ∨
      get_flags_for_file fs db n (name ++ e2) = some (Except.ok (some [])))
    (hhit : get_flags_for_file fs db n (name ++ e) = some (Except.ok (some l)))
    (hne : l ≠ []) :
    get_flags_for_file fs db (n + 1) fn = some (Except.ok (some l)) := by
  obtain ⟨x, l2, rfl⟩ : ∃ x l2, l = x :: l2 := by
    cases l with
    | nil => exact absurd rfl hne
    | cons a b => exact ⟨a, b, rfl⟩
  unfold get_flags_for_file
  rw [hsplit]
  dsimp only
  rw [hhdr]
  rw [if_pos rfl]
  rw [hexts, List.foldr_append]
  have hinner : List.foldr
      (fun e acc => tryStep (get_flags_for_file fs db n (name ++ e)) acc)
      (some (Except.ok none)) (e :: post) = some (Except.ok (some (x :: l2))) := by
    rw [List.foldr_cons, hhit]
    rfl
  rw [hinner]
  exact foldr_tryStep_skip fs db n name (some (Except.ok (some (x :: l2)))) pre hpre

/-- Witness for header_fallback_first_truthy at the concrete scenario
with candidates [.cpp, .cc]. -/
theorem header_fallback_first_truthy_witness :
    get_flags_for_file fsC6 dbC6 2 "/p/n.h" = some (Except.ok (some ["-Wall"])) :=
  header_fallback_first_truthy fsC6 dbC6 1 "/p/n.h" "/p/n" ".h" ".cc" [".cpp"] [] ["-Wall"]
    (by decide) (by decide) (by decide) (by decide) (by decide) (by decide)

/-- Claim C7, counterexample: locating the database at /a/b with the
only config at the filesystem root caches the config against the
directory where it was found only; the intermediate directories /a/b
and /a that the config walk visited are not cached, contradicting the
claim that every visited directory is cached against the resolved
configuration. -/
theorem config_walk_cache_counterexample :
    (find_db_for_file fsC7 st0 "/a/b/f.c").1 = Except.ok (some dbC7) ∧
    (find_db_for_file fsC7 st0 "/a/b/f.c").2.configs.lookup "/a/b" = none ∧
    (find_db_for_file fsC7 st0 "/a/b/f.c").2.configs.lookup "/a" = none ∧
    (find_db_for_file fsC7 st0 "/a/b/f.c").2.configs.lookup "/" = some cfgC7 ∧
    fsC7.configAt "/a/b" = none ∧ fsC7.configAt "/a" = none := by decide

/-- The directory walk returns the cached database of the first cached
ancestor when no nearer ancestor is cached or holds a database file. -/
theorem findDbWalk_cached (fs : FS) (st : St) (root : String) (db : DB)
    (rest : List String) :
    ∀ pre : List String,
    (∀ d ∈ pre, st.dbs.lookup d = none ∧
      fs.isFile (pathJoin d "compile_commands.json") = false) →
    st.dbs.lookup root = some db →
    findDbWalk fs st (pre ++ root :: rest) = some (Sum.inl db) := by
  intro pre
  induction pre with
  | nil =>
    intro _ hroot
    rw [List.nil_append]
    unfold findDbWalk
    rw [hroot]
  | cons p ps ih =>
    intro hpre hroot
    rw [List.cons_append]
    unfold findDbWalk
    rw [(hpre p (by simp)).1]
    dsimp only
    rw [(hpre p (by simp)).2]
    exact ih (fun d hd => hpre d (by simp [hd])) hroot

/-- Claim C7, amended: once a directory is cached as a database root,
any later query for an existing file whose ancestor chain reaches that
directory, with no nearer ancestor cached or holding a database file,
returns exactly the cached database object (together with its config)
and leaves both caches unchanged; no new database or config object is
constructed.  The walk below the cached root is still performed on
every call, and the config walk caches only the directory where a
config file was found. -/
theorem cached_root_reused (fs : FS) (st : St) (fn root : String) (db : DB)
    (pre rest : List String)
    (hex : fs.fexists fn = true)
    (habs : isAbsPath fn = true)
    (hpar : parentsOf fn = pre ++ root :: rest)
    (hpre : ∀ d ∈ pre, st.dbs.lookup d = none ∧
      fs.isFile (pathJoin d "compile_commands.json") = false)
    (hroot : st.dbs.lookup root = some db) :
    find_db_for_file fs st fn = (Except.ok (some db), st) := by
  unfold find_db_for_file
  simp only [hex, Bool.true_eq_false, if_false, habs, if_true]
  rw [hpar]
  rw [findDbWalk_cached fs st root db rest pre hpre hroot]

/-- Witness for cached_root_reused: a second file below the cached root
/p reuses the cached database object with the state unchanged. -/
theorem cached_root_reused_witness :
    find_db_for_file fsW7 stW7 "/p/s/a.c" =
      (Except.ok (some ⟨"/p", cfgC7, HEADER_EXTS, SOURCE_EXTS⟩), stW7) :=
  cached_root_reused fsW7 stW7 "/p/s/a.c" "/p" ⟨"/p", cfgC7, HEADER_EXTS, SOURCE_EXTS⟩
    ["/p/s"] ["/"] (by decide) (by decide) (by decide) (by decide) (by decide)

/-- Inversion of Except.map at a successful result. -/
theorem except_map_ok {α β : Type} {g : α → β} {r : Except PyErr α} {b : β}
    (h : r.map g = Except.ok b) : ∃ a, r = Except.ok a ∧ b = g a := by
  cases r with
  | error e => simp [Except.map] at h
  | ok a =>
    refine ⟨a, rfl, ?_⟩
    simpa [Except.map] using h.symm

/-- Claim C4, counterexample: the argument list [-iplugindir=foo]
contains no squash flag, not even as a prefix, yet flattening its
tokenization gives two strings instead of the original list, because
-iplugindir= is a joined-form path flag that is not squashed back. -/
theorem flatten_tokenize_counterexample :
    (["-iplugindir=foo"].all
      (fun a => SQUASH_FLAGS.all (fun fl => !(fl.data.isPrefixOf a.data))) = true) ∧
    parse_multi_arg_flags ["-iplugindir=foo"] =
      Except.ok [Flag.pair "-iplugindir=" "foo"] ∧
    flatten_flags [Flag.pair "-iplugindir=" "foo"] = ["-iplugindir=", "foo"] ∧
    (["-iplugindir=", "foo"] : List String) ≠ ["-iplugindir=foo"] := by decide

/-- Round-trip induction with an explicit length bound. -/
theorem roundtrip_aux (n : Nat) : ∀ (xs : List String) (ts : List Flag),
    xs.length ≤ n →
    parse_multi_arg_flags xs = Except.ok ts →
    (∀ a ∈ xs, joinedSquashOnly a) →
    flatten_flags ts = xs := by
  induction n with
  | zero =>
    intro xs ts hlen hok _
    have hx : xs = [] := List.eq_nil_of_length_eq_zero (Nat.le_zero.mp hlen)
    subst hx
    have h2 : Except.ok (ε := PyErr) ([] : List Flag) = Except.ok ts := hok
    rw [← Except.ok.inj h2]
    rfl
  | succ n ih =>
    intro xs ts hlen hok hj
    cases xs with
    | nil =>
      have h2 : Except.ok (ε := PyErr) ([] : List Flag) = Except.ok ts := hok
      rw [← Except.ok.inj h2]
      rfl
    | cons f rest =>
      cases rest with
      | nil =>
        rw [parse_multi_arg_flags] at hok
        cases hsg : singleArgPathFlag f with
        | some fp =>
          obtain ⟨fl, pv⟩ := fp
          rw [hsg] at hok
          have hts : ts = [Flag.pair fl pv] := (Except.ok.inj hok).symm
          subst hts
          have hsq : SQUASH_FLAGS.contains fl = true := by
            have h3 := hj f (by simp)
            unfold joinedSquashOnly at h3
            rw [hsg] at h3
            exact h3
          have happ : fl ++ pv = f := singleArg_append hsg
          rw [flatten_flags, hsq, if_pos rfl, happ]
          rfl
        | none =>
          rw [hsg] at hok
          cases hm : MULTI_ARG_FLAGS.contains f with
          | true =>
            rw [hm, if_pos rfl] at hok
            exact absurd hok (by simp)
          | false =>
            rw [hm, if_neg (by simp)] at hok
            have hts : ts = [Flag.bare f] := (Except.ok.inj hok).symm
            subst hts
            rfl
      | cons v rest2 =>
        rw [parse_multi_arg_flags] at hok
        cases hsg : singleArgPathFlag f with
        | some fp =>
          obtain ⟨fl, pv⟩ := fp
          rw [hsg] at hok
          obtain ⟨ts2, hrest, hts⟩ := except_map_ok hok
          subst hts
          have hsq : SQUASH_FLAGS.contains fl = true := by
            have h3 := hj f (by simp)
            unfold joinedSquashOnly at h3
            rw [hsg] at h3
            exact h3
          have happ : fl ++ pv = f := singleArg_append hsg
          have hlen2 : (v :: rest2).length ≤ n := by
            simp [List.length_cons] at hlen ⊢
            omega
          have ihr := ih (v :: rest2) ts2 hlen2 hrest (fun a ha => hj a (by simp [ha]))
          rw [flatten_flags, hsq, if_pos rfl, happ, ihr]
        | none =>
          rw [hsg] at hok
          cases hm : MULTI_ARG_FLAGS.contains f with
          | true =>
            rw [hm, if_pos rfl] at hok
            obtain ⟨ts2, hrest, hts⟩ := except_map_ok hok
            subst hts
            have hmem : f ∈ MULTI_ARG_FLAGS := by
              simpa [List.contains] using hm
            have hnot : ∀ x ∈ MULTI_ARG_FLAGS, SQUASH_FLAGS.contains x = false := by decide
            have hsq : SQUASH_FLAGS.contains f = false := hnot f hmem
            have hlen2 : rest2.length ≤ n := by
              simp [List.length_cons] at hlen
              omega
            have ihr := ih rest2 ts2 hlen2 hrest (fun a ha => hj a (by simp [ha]))
            rw [flatten_flags, hsq, if_neg (by simp), ihr]
          | false =>
            rw [hm, if_neg (by simp)] at hok
            obtain ⟨ts2, hrest, hts⟩ := except_map_ok hok
            subst hts
            have hlen2 : (v :: rest2).length ≤ n := by
              simp [List.length_cons] at hlen ⊢
              omega
            have ihr := ih (v :: rest2) ts2 hlen2 hrest (fun a ha => hj a (by simp [ha]))
            rw [flatten_flags, ihr]

/-- Claim C4, amended: flattening inverts tokenization for every
argument list on which tokenization succeeds (no multi-argument flag is
last without a value) and whose joined-form matches are all squash
flags; the list [-iplugindir=foo] shows the second restriction is
needed, and an argument list ending in a bare multi-argument flag shows
the first is. -/
theorem flatten_tokenize_roundtrip (xs : List String) (ts : List Flag)
    (hok : parse_multi_arg_flags xs = Except.ok ts)
    (hjoin : ∀ a ∈ xs, joinedSquashOnly a) :
    flatten_flags ts = xs :=
  roundtrip_aux xs.length xs ts (Nat.le_refl _) hok hjoin

/-- Witness for flatten_tokenize_roundtrip on a list mixing a joined
squash flag, a split multi-argument flag and plain arguments. -/
theorem flatten_tokenize_roundtrip_witness :
    flatten_flags [Flag.pair "-I" "foo", Flag.pair "-include" "bar", Flag.bare "-DX"] =
      ["-Ifoo", "-include", "bar", "-DX"] :=
  flatten_tokenize_roundtrip ["-Ifoo", "-include", "bar", "-DX"]
    [Flag.pair "-I" "foo", Flag.pair "-include" "bar", Flag.bare "-DX"]
    (by decide) (by decide)

end YcmConf
